import Mathlib

/-!
Verification of the path-following controller in
`software/micromouse_logic/src/path.rs` (the `Segment`, `PathBuf` and `Path`
types and the `offset_curvature` helper).

Modelling choices:
* `f32` scalars are modelled by the type `F` below: an exact real number
  (`F.fin`) or one of the IEEE special values `+inf`, `-inf`, `NaN`.
  Rounding is idealised (finite arithmetic is exact real arithmetic), but the
  IEEE rules for division by zero and for propagation of infinities and NaN
  are kept, because the code relies on them (`offset_curvature` divides by a
  zero curvature, `update` divides by a possibly-zero projected distance).
  Quantities that are always finite in the algorithm (vector components,
  angles) are modelled directly by `ℝ`.
* `u32` tick times are modelled by `ℕ` with the wrapping subtraction
  `wrapSub` (release-mode semantics of `time - self.time`).
* The geometry library `crate::math` / `crate::bezier` is part of the
  repository but not available here; the pieces the controller consumes are
  modelled from the spec (marked `Modelled from the spec:`).  The cubic-curve
  queries (`closest_point`, `derivative`, `curvature`) are passed to the
  controller as an explicit `CurveOps` record, since the spec treats them as
  an external primitive that is assumed correct.
* The `heapless::Vec<Segment, U16>` buffer is a `List Segment` in insertion
  order; the top of the stack is the end of the list, exactly as
  `Vec::last`/`Vec::pop` behave in the source.
-/

namespace Micromouse

open Classical

/-- Model of an `f32` value: a finite real, an infinity, or NaN. -/
inductive F where
  | fin (x : ℝ)
  | pinf
  | ninf
  | nan

/-- IEEE addition on the model. -/
def F.add : F → F → F
  | F.nan, _ => F.nan
  | _, F.nan => F.nan
  | F.fin x, F.fin y => F.fin (x + y)
  | F.fin _, F.pinf => F.pinf
  | F.pinf, F.fin _ => F.pinf
  | F.pinf, F.pinf => F.pinf
  | F.fin _, F.ninf => F.ninf
  | F.ninf, F.fin _ => F.ninf
  | F.ninf, F.ninf => F.ninf
  | F.pinf, F.ninf => F.nan
  | F.ninf, F.pinf => F.nan

/-- IEEE negation on the model. -/
def F.neg : F → F
  | F.fin x => F.fin (-x)
  | F.pinf => F.ninf
  | F.ninf => F.pinf
  | F.nan => F.nan

/-- IEEE subtraction on the model. -/
def F.sub (a b : F) : F := F.add a (F.neg b)

/-- IEEE division on the model (single zero: the sign of a zero divisor is
taken to be positive, as every zero produced by the modelled code is `+0.0`). -/
noncomputable def F.div : F → F → F
  | F.nan, _ => F.nan
  | _, F.nan => F.nan
  | F.fin x, F.fin y =>
    if y = 0 then
      if x = 0 then F.nan else if 0 < x then F.pinf else F.ninf
    else F.fin (x / y)
  | F.fin _, F.pinf => F.fin 0
  | F.fin _, F.ninf => F.fin 0
  | F.pinf, F.fin y => if 0 ≤ y then F.pinf else F.ninf
  | F.ninf, F.fin y => if 0 ≤ y then F.ninf else F.pinf
  | F.pinf, F.pinf => F.nan
  | F.pinf, F.ninf => F.nan
  | F.ninf, F.pinf => F.nan
  | F.ninf, F.ninf => F.nan

/-- IEEE strict comparison `<` (false on any NaN operand). -/
def F.lt : F → F → Prop
  | F.fin x, F.fin y => x < y
  | F.fin _, F.pinf => True
  | F.ninf, F.fin _ => True
  | F.ninf, F.pinf => True
  | _, _ => False

/-- IEEE comparison `≤` (false on any NaN operand). -/
def F.le : F → F → Prop
  | F.fin x, F.fin y => x ≤ y
  | F.fin _, F.pinf => True
  | F.pinf, F.pinf => True
  | F.ninf, F.fin _ => True
  | F.ninf, F.pinf => True
  | F.ninf, F.ninf => True
  | _, _ => False

/-- The value is an ordinary (finite) number. -/
def F.isFin : F → Prop
  | F.fin _ => True
  | _ => False

@[simp] theorem F.add_fin_fin (x y : ℝ) : F.add (F.fin x) (F.fin y) = F.fin (x + y) := rfl

@[simp] theorem F.add_pinf_fin (y : ℝ) : F.add F.pinf (F.fin y) = F.pinf := rfl

@[simp] theorem F.add_fin_pinf (x : ℝ) : F.add (F.fin x) F.pinf = F.pinf := rfl

@[simp] theorem F.lt_fin_fin (x y : ℝ) : F.lt (F.fin x) (F.fin y) ↔ x < y := Iff.rfl

@[simp] theorem F.le_fin_fin (x y : ℝ) : F.le (F.fin x) (F.fin y) ↔ x ≤ y := Iff.rfl

@[simp] theorem F.isFin_fin (x : ℝ) : F.isFin (F.fin x) := trivial

@[simp] theorem F.not_isFin_pinf : ¬ F.isFin F.pinf := fun h => h

@[simp] theorem F.not_isFin_ninf : ¬ F.isFin F.ninf := fun h => h

@[simp] theorem F.not_isFin_nan : ¬ F.isFin F.nan := fun h => h

theorem F.div_fin_fin {y : ℝ} (x : ℝ) (hy : y ≠ 0) :
    F.div (F.fin x) (F.fin y) = F.fin (x / y) := by
  simp [F.div, hy]

@[simp] theorem F.div_zero_zero : F.div (F.fin 0) (F.fin 0) = F.nan := by
  simp [F.div]

theorem F.div_pos_zero {x : ℝ} (hx : 0 < x) : F.div (F.fin x) (F.fin 0) = F.pinf := by
  simp [F.div, hx.ne', hx]

theorem F.div_neg_zero {x : ℝ} (hx : x < 0) : F.div (F.fin x) (F.fin 0) = F.ninf := by
  simp [F.div, hx.ne, hx, hx.not_lt]

@[simp] theorem F.div_fin_pinf (x : ℝ) : F.div (F.fin x) F.pinf = F.fin 0 := rfl

@[simp] theorem F.div_fin_ninf (x : ℝ) : F.div (F.fin x) F.ninf = F.fin 0 := rfl

/-- Dividing any finite numerator by (finite) zero never produces a finite
value: the result is `NaN` or an infinity. -/
theorem F.not_isFin_div_fin_zero (x : ℝ) : ¬ F.isFin (F.div (F.fin x) (F.fin 0)) := by
  rcases lt_trichotomy x 0 with h | h | h
  · rw [F.div_neg_zero h]; exact F.not_isFin_ninf
  · subst h; rw [F.div_zero_zero]; exact F.not_isFin_nan
  · rw [F.div_pos_zero h]; exact F.not_isFin_pinf

/-- Adding anything to a non-finite value stays non-finite. -/
theorem F.not_isFin_add_right (a : F) {b : F} (hb : ¬ F.isFin b) :
    ¬ F.isFin (F.add a b) := by
  cases a <;> cases b <;> simp_all [F.add, F.isFin]

/-- Modelled from the spec: the 2-D vector type of `crate::math` (not under
`src/`): "(x, y) in millimeters". -/
structure Vector where
  x : ℝ
  y : ℝ

instance : Add Vector := ⟨fun a b => ⟨a.x + b.x, a.y + b.y⟩⟩

instance : Sub Vector := ⟨fun a b => ⟨a.x - b.x, a.y - b.y⟩⟩

instance : SMul ℝ Vector := ⟨fun c v => ⟨c * v.x, c * v.y⟩⟩

@[simp] theorem Vector.add_def (a b : Vector) : a + b = ⟨a.x + b.x, a.y + b.y⟩ := rfl

@[simp] theorem Vector.sub_def (a b : Vector) : a - b = ⟨a.x - b.x, a.y - b.y⟩ := rfl

@[simp] theorem Vector.smul_def (c : ℝ) (v : Vector) : c • v = ⟨c * v.x, c * v.y⟩ := rfl

/-- Modelled from the spec: vector magnitude of `crate::math` (not under
`src/`). -/
noncomputable def Vector.magnitude (v : Vector) : ℝ := Real.sqrt (v.x ^ 2 + v.y ^ 2)

/-- Modelled from the spec: the 2-D scalar cross product of `crate::math`
(not under `src/`): "z-component of the 3-D cross". -/
def Vector.cross (a b : Vector) : ℝ := a.x * b.y - a.y * b.x

/-- Modelled from the spec: conversion of a vector to a direction
(`crate::math`, not under `src/`), as the standard atan2 angle of the
vector. -/
noncomputable def atan2 (y x : ℝ) : ℝ :=
  if 0 < x then Real.arctan (y / x)
  else if x < 0 ∧ 0 ≤ y then Real.arctan (y / x) + Real.pi
  else if x < 0 ∧ y < 0 then Real.arctan (y / x) - Real.pi
  else if x = 0 ∧ 0 < y then Real.pi / 2
  else if x = 0 ∧ y < 0 then -(Real.pi / 2)
  else 0

/-- Modelled from the spec: `Vector::direction` of `crate::math` (not under
`src/`). -/
noncomputable def Vector.direction (v : Vector) : ℝ := atan2 v.y v.x

/-- Modelled from the spec: the `Direction` type of `crate::math` (not under
`src/`) is "internally continuous (not wrapped) for arithmetic", so headings
are plain real angles in radians; `Direction::from(f32)` and `f32::from` are
the identity and addition of an angular offset is real addition. -/
abbrev Direction : Type := ℝ

/-- Modelled from the spec: `Direction::into_unit_vector` of `crate::math`
(not under `src/`). -/
noncomputable def Direction.intoUnitVector (d : Direction) : Vector :=
  ⟨Real.cos d, Real.sin d⟩

/-- Modelled from the spec: `Direction::centered_at(reference)` of
`crate::math` (not under `src/`): "returns this direction's angle expressed
on the branch nearest `reference`", i.e. shifted by the multiple of 2π that
lands nearest the reference. -/
noncomputable def Direction.centeredAt (d reference : Direction) : ℝ :=
  d - 2 * Real.pi * (round ((d - reference) / (2 * Real.pi)) : ℤ)

/-- The cubic Bézier control polygon of `crate::bezier::Bezier3` (not under
`src/`); the field names follow the source (`end` is a keyword, hence
`end_`). -/
structure Bezier3 where
  start : Vector
  ctrl0 : Vector
  ctrl1 : Vector
  end_ : Vector

/-- Modelled from the spec: derivative of the cubic Bézier curve at a
parameter (`crate::bezier`, not under `src/`), by the standard formula. -/
noncomputable def Bezier3.derivAt (b : Bezier3) (t : ℝ) : Vector :=
  (3 * (1 - t) ^ 2) • (b.ctrl0 - b.start) + (6 * (1 - t) * t) • (b.ctrl1 - b.ctrl0) +
    (3 * t ^ 2) • (b.end_ - b.ctrl1)

/-- Modelled from the spec: second derivative of the cubic Bézier curve at a
parameter (`crate::bezier`, not under `src/`), by the standard formula. -/
noncomputable def Bezier3.derivAt2 (b : Bezier3) (t : ℝ) : Vector :=
  (6 * (1 - t)) • (b.ctrl1 - (2 : ℝ) • b.ctrl0 + b.start) +
    (6 * t) • (b.end_ - (2 : ℝ) • b.ctrl1 + b.ctrl0)

/-- The curve queries the controller consumes, passed explicitly because the
spec treats the curve library as an external primitive that is assumed
correct: closest-point projection (parameter + projected point, parameter not
clamped above 1), tangent vector at a parameter, signed curvature at a
parameter. -/
structure CurveOps where
  closestPoint : Bezier3 → Vector → F × Vector
  derivativeAt : Bezier3 → F → Vector
  curvatureAt : Bezier3 → F → F

/-- A segment of a larger path (`path.rs`, `struct Segment`). -/
structure Segment where
  bezier : Bezier3

/-- `Segment::corner` (`path.rs` lines 54-68). -/
noncomputable def Segment.corner (center : Vector) (start end_ : Direction)
    (radius : ℝ) : Segment :=
  { bezier :=
      { start := center - radius • Direction.intoUnitVector start
        ctrl0 := center
        ctrl1 := center
        end_ := center + radius • Direction.intoUnitVector end_ } }

/-- `Segment::line` (`path.rs` lines 71-81): both control points are the
midpoint `(end - start) * 0.5 + start`. -/
noncomputable def Segment.line (start end_ : Vector) : Segment :=
  { bezier :=
      { start := start
        ctrl0 := (0.5 : ℝ) • (end_ - start) + start
        ctrl1 := (0.5 : ℝ) • (end_ - start) + start
        end_ := end_ } }

/-- `Segment::closest_point` (`path.rs` line 84), delegating to the curve
library. -/
def Segment.closest_point (ops : CurveOps) (s : Segment) (m : Vector) : F × Vector :=
  ops.closestPoint s.bezier m

/-- `Segment::derivative` (`path.rs` line 89), delegating to the curve
library. -/
def Segment.derivative (ops : CurveOps) (s : Segment) (t : F) : Vector :=
  ops.derivativeAt s.bezier t

/-- `Segment::curvature` (`path.rs` line 94), delegating to the curve
library. -/
def Segment.curvature (ops : CurveOps) (s : Segment) (t : F) : F :=
  ops.curvatureAt s.bezier t

/-- `offset_curvature` (`path.rs` lines 100-111): models the path locally as
an arc of radius `1/curvature` and returns the curvature of the concentric
arc through the offset position. -/
noncomputable def offset_curvature (curvature distance : F) : F :=
  let r := F.div (F.fin 1) curvature
  let r2 := if F.lt (F.fin 0) curvature then F.sub r distance else F.add r distance
  F.div (F.fin 1) r2

/-- The signed cross-track distance computed in `Path::update`
(`path.rs` lines 224-228): the magnitude of the offset vector, negated unless
the 2-D cross product of the tangent with the offset is positive. -/
noncomputable def signedDistance (v_tangent v_m : Vector) : ℝ :=
  if 0 < Vector.cross v_tangent v_m then Vector.magnitude v_m else -Vector.magnitude v_m

/-- The s-curve angle offset computed in `Path::update`
(`path.rs` lines 259-260): `PI / (1.0 + exp(offset_p * distance)) - FRAC_PI_2`. -/
noncomputable def adjustDirectionOffset (offset_p distance : ℝ) : ℝ :=
  Real.pi / (1 + Real.exp (offset_p * distance)) - Real.pi / 2

/-- `PathDebug` (`path.rs` lines 158-170), the per-tick diagnostics
snapshot. -/
structure PathDebug where
  path : Option (List Segment) := none
  closest_point : Option (F × Vector) := none
  distance_from : Option ℝ := none
  tangent_direction : Option Direction := none
  adjust_direction : Option Direction := none
  centered_direction : Option ℝ := none
  offset_direction : Option ℝ := none
  projected_distance : Option ℝ := none
  adjust_curvature : Option F := none
  target_curvature : Option F := none

/-- Modelled from the spec: the pose type `crate::math::Orientation` (not
under `src/`): "a pose value (position: Vector, heading: Direction)". -/
structure Orientation where
  position : Vector
  direction : Direction

/-- `PathConfig` (`path.rs` lines 172-176). -/
structure PathConfig where
  offset_p : ℝ
  velocity : ℝ

/-- `Path` (`path.rs` lines 178-182): the segment buffer (insertion order,
top of the stack at the end of the list) and the last-processed tick time. -/
structure Path where
  segment_buffer : List Segment
  time : ℕ

/-- `Path::new` (`path.rs` lines 185-190). -/
def Path.new (_config : PathConfig) (time : ℕ) : Path :=
  { segment_buffer := [], time := time }

/-- The loop body of `Path::add_segments` (`path.rs` lines 193-197): push the
segments one by one onto the `heapless::Vec` of capacity 16, stopping with
`Err(i)` at the first index whose push fails. -/
def addSegmentsFrom : List Segment → List Segment → ℕ → List Segment × Except ℕ ℕ
  | buf, [], _ => (buf, Except.ok (16 - buf.length))
  | buf, s :: rest, i =>
    if buf.length < 16 then addSegmentsFrom (buf ++ [s]) rest (i + 1)
    else (buf, Except.error i)

/-- `Path::add_segments` (`path.rs` lines 192-200): on success `Ok` of the
remaining free capacity `PathBufLen::to_usize() - len`. -/
def Path.add_segments (p : Path) (segments : List Segment) : Path × Except ℕ ℕ :=
  let r := addSegmentsFrom p.segment_buffer segments 0
  ({ segment_buffer := r.1, time := p.time }, r.2)

/-- The segment-advance loop of `Path::update` (`path.rs` lines 214-239),
written on the reversed buffer so that the stack top (`Vec::last`) is the head
of the list: pop every leading segment whose closest-point parameter `t`
satisfies `t >= 1.0`, and stop at the first segment where that comparison
fails (or when the buffer is empty), returning the remaining (still reversed)
buffer, the last examined closest point (for `debug.closest_point`), and the
`(curvature, distance, tangent)` info of the active segment. -/
noncomputable def advanceRev (ops : CurveOps) (position : Vector) :
    List Segment → List Segment × Option (F × Vector) × Option (F × ℝ × Direction)
  | [] => ([], none, none)
  | segment :: rest =>
    let tp := Segment.closest_point ops segment position
    if F.le (F.fin 1) tp.1 then
      let r := advanceRev ops position rest
      (r.1, some (r.2.1.getD tp), r.2.2)
    else
      let v_tangent := Segment.derivative ops segment tp.1
      let v_m := position - tp.2
      let distance := signedDistance v_tangent v_m
      let tangent := Vector.direction v_tangent
      let curvature := Segment.curvature ops segment tp.1
      (segment :: rest, some tp, some (curvature, distance, tangent))

/-- The segment-advance loop of `Path::update` acting on the buffer in its
stored (insertion) order: the top of the stack is the end of the list. -/
noncomputable def advanceBuf (ops : CurveOps) (position : Vector)
    (buf : List Segment) :
    List Segment × Option (F × Vector) × Option (F × ℝ × Direction) :=
  let r := advanceRev ops position buf.reverse
  (r.1.reverse, r.2)

/-- Wrapping `u32` subtraction, the release-mode semantics of
`time - self.time` (`path.rs` line 210). -/
def wrapSub (a b : ℕ) : ℕ := (a + 2 ^ 32 - b % 2 ^ 32) % 2 ^ 32

/-- The value returned by `Path::update` together with the mutated controller
state (the Rust method mutates `self`; the model passes the state
explicitly). -/
structure UpdateResult where
  state : Path
  curvature : F
  velocity : ℝ
  done : Bool
  debug : PathDebug

/-- `Path::update` (`path.rs` lines 202-306). -/
noncomputable def Path.update (p : Path) (ops : CurveOps) (config : PathConfig)
    (time : ℕ) (orientation : Orientation) : UpdateResult :=
  let delta_time := wrapSub time p.time
  let adv := advanceBuf ops orientation.position p.segment_buffer
  match adv.2.2 with
  | some info =>
    let path_curvature := info.1
    let distance := info.2.1
    let tangent := info.2.2
    let offc := offset_curvature path_curvature (F.fin distance)
    let inner : Option (ℝ × ℝ × ℝ × ℝ) :=
      if config.offset_p ≠ 0 then
        let adjust_direction := tangent + adjustDirectionOffset config.offset_p distance
        let projected_distance := (delta_time : ℝ) * config.velocity
        let centered_direction := Direction.centeredAt orientation.direction adjust_direction
        let offset_direction := adjust_direction - centered_direction
        some (adjust_direction, projected_distance, centered_direction, offset_direction)
      else none
    let adjust_curvature : F :=
      match inner with
      | some q => F.div (F.fin q.2.2.2) (F.fin q.2.1)
      | none => F.fin 0
    let target_curvature := F.add offc adjust_curvature
    { state := { segment_buffer := adv.1, time := time }
      curvature := target_curvature
      velocity := config.velocity
      done := false
      debug :=
        { path := some adv.1
          closest_point := adv.2.1
          distance_from := some distance
          tangent_direction := some tangent
          adjust_direction := Option.map (fun q => q.1) inner
          projected_distance := Option.map (fun q => q.2.1) inner
          centered_direction := Option.map (fun q => q.2.2.1) inner
          offset_direction := Option.map (fun q => q.2.2.2) inner
          adjust_curvature := some adjust_curvature
          target_curvature := some target_curvature } }
  | none =>
    { state := { segment_buffer := adv.1, time := time }
      curvature := F.fin 0
      velocity := 0
      done := true
      debug := { path := some adv.1, closest_point := adv.2.1 } }

/-- Modelled from the spec: the closest-point projection of the external
curve library (`crate::bezier`, not under `src/`), specialised to the
scenario segment `line((0,0),(1000,0))` whose image is the x-axis interval
from the start to the end: for a query point at or left of the start
(`x ≤ start.x`) the distance-minimising parameter is 0 and the projected
point is the start; otherwise the scenario queries sit at or past the end,
where the parameter 1 is the completion signal and the projected point is the
end. -/
noncomputable def scenClosest (b : Bezier3) (m : Vector) : F × Vector :=
  if m.x ≤ b.start.x then (F.fin 0, b.start) else (F.fin 1, b.end_)

/-- Modelled from the spec: a concrete instance of the external curve queries
(`crate::bezier`, not under `src/`) for the concrete scenarios below:
closest-point projection as in `scenClosest`, tangent by the cubic Bézier
derivative formula, and signed curvature by the standard formula
`cross(B', B'') / |B'|³` (an IEEE division, NaN on a non-finite parameter). -/
noncomputable def scenOps : CurveOps :=
  { closestPoint := scenClosest
    derivativeAt := fun b t =>
      match t with
      | F.fin r => Bezier3.derivAt b r
      | _ => ⟨0, 0⟩
    curvatureAt := fun b t =>
      match t with
      | F.fin r =>
        F.div (F.fin (Vector.cross (Bezier3.derivAt b r) (Bezier3.derivAt2 b r)))
          (F.fin (Vector.magnitude (Bezier3.derivAt b r) ^ 3))
      | _ => F.nan }

/-- One call into the controller: a batch append (`add_segments`) or one
control tick (`update`). -/
inductive PathOp where
  | add (segments : List Segment)
  | upd (ops : CurveOps) (config : PathConfig) (time : ℕ) (orientation : Orientation)

/-- Apply one controller call to the state. -/
noncomputable def applyOp (p : Path) : PathOp → Path
  | PathOp.add segments => (p.add_segments segments).1
  | PathOp.upd ops config time o => (p.update ops config time o).state

/-- Apply a sequence of controller calls to the state. -/
noncomputable def applyOps (p : Path) (l : List PathOp) : Path :=
  l.foldl applyOp p

theorem advanceRev_cons_complete (ops : CurveOps) (pos : Vector) (a : Segment)
    (rest : List Segment) (h : F.le (F.fin 1) (Segment.closest_point ops a pos).1) :
    (advanceRev ops pos (a :: rest)).1 = (advanceRev ops pos rest).1 := by
  simp [advanceRev, h]

theorem advanceRev_cons_active (ops : CurveOps) (pos : Vector) (a : Segment)
    (rest : List Segment) (h : ¬ F.le (F.fin 1) (Segment.closest_point ops a pos).1) :
    advanceRev ops pos (a :: rest) =
      (a :: rest,
        some (Segment.closest_point ops a pos),
        some (Segment.curvature ops a (Segment.closest_point ops a pos).1,
          signedDistance (Segment.derivative ops a (Segment.closest_point ops a pos).1)
            (pos - (Segment.closest_point ops a pos).2),
          Vector.direction
            (Segment.derivative ops a (Segment.closest_point ops a pos).1))) := by
  simp [advanceRev, h]

/-- What the pop loop does on the reversed buffer: the result is a suffix
(`drop j`), every dropped (popped) segment compared complete (`1 ≤ t`), and
the loop stopped at an incomplete head or an empty list. -/
theorem advanceRev_spec (ops : CurveOps) (pos : Vector) (l : List Segment) :
    ∃ j, j ≤ l.length ∧ (advanceRev ops pos l).1 = l.drop j ∧
      (∀ s ∈ l.take j, F.le (F.fin 1) (Segment.closest_point ops s pos).1) ∧
      ((advanceRev ops pos l).1 = [] ∨
        ∃ s, (advanceRev ops pos l).1.head? = some s ∧
          ¬ F.le (F.fin 1) (Segment.closest_point ops s pos).1) := by
  induction l with
  | nil => exact ⟨0, by simp [advanceRev]⟩
  | cons a rest ih =>
    by_cases h : F.le (F.fin 1) (Segment.closest_point ops a pos).1
    · obtain ⟨j, hj, h1, h2, h3⟩ := ih
      refine ⟨j + 1, by simpa using hj, ?_, ?_, ?_⟩
      · rw [advanceRev_cons_complete ops pos a rest h, h1, List.drop_succ_cons]
      · intro s hs
        rw [List.take_succ_cons, List.mem_cons] at hs
        rcases hs with rfl | hs
        · exact h
        · exact h2 s hs
      · rw [advanceRev_cons_complete ops pos a rest h]
        exact h3
    · refine ⟨0, Nat.zero_le _, ?_, by simp, Or.inr ⟨a, ?_, h⟩⟩
      · simp [advanceRev_cons_active ops pos a rest h]
      · simp [advanceRev_cons_active ops pos a rest h]

/-- The same facts transported to the buffer in its stored (insertion) order:
the advance loop keeps a prefix (`take k`) of the buffer, every removed
segment compared complete, and the loop stopped at an incomplete stack top or
an empty buffer. -/
theorem advanceBuf_spec (ops : CurveOps) (pos : Vector) (buf : List Segment) :
    ∃ k, k ≤ buf.length ∧ (advanceBuf ops pos buf).1 = buf.take k ∧
      (∀ s ∈ buf.drop k, F.le (F.fin 1) (Segment.closest_point ops s pos).1) ∧
      ((advanceBuf ops pos buf).1 = [] ∨
        ∃ s, (advanceBuf ops pos buf).1.getLast? = some s ∧
          ¬ F.le (F.fin 1) (Segment.closest_point ops s pos).1) := by
  obtain ⟨j, hj, h1, h2, h3⟩ := advanceRev_spec ops pos buf.reverse
  have hbuf : (advanceBuf ops pos buf).1 = (advanceRev ops pos buf.reverse).1.reverse := rfl
  refine ⟨buf.length - j, Nat.sub_le _ _, ?_, ?_, ?_⟩
  · rw [hbuf, h1, ← List.rdrop_eq_reverse_drop_reverse, List.rdrop]
  · intro s hs
    have hd : buf.drop (buf.length - j) = (buf.reverse.take j).reverse := by
      rw [← List.rtake_eq_reverse_take_reverse, List.rtake]
    rw [hd, List.mem_reverse] at hs
    exact h2 s hs
  · rcases h3 with h3 | ⟨s, hs, hns⟩
    · left
      rw [hbuf, h3, List.reverse_nil]
    · right
      exact ⟨s, by rw [hbuf, List.getLast?_reverse]; exact hs, hns⟩

theorem update_state_buffer (p : Path) (ops : CurveOps) (config : PathConfig)
    (time : ℕ) (o : Orientation) :
    (p.update ops config time o).state.segment_buffer =
      (advanceBuf ops o.position p.segment_buffer).1 := by
  cases h : (advanceBuf ops o.position p.segment_buffer).2.2 with
  | none => simp [Path.update, h]
  | some info => simp [Path.update, h]

theorem update_state_time (p : Path) (ops : CurveOps) (config : PathConfig)
    (time : ℕ) (o : Orientation) :
    (p.update ops config time o).state.time = time := by
  cases h : (advanceBuf ops o.position p.segment_buffer).2.2 with
  | none => simp [Path.update, h]
  | some info => simp [Path.update, h]

theorem F.isFin_iff (a : F) : F.isFin a ↔ ∃ x, a = F.fin x := by
  cases a <;> simp [F.isFin]

/-- The scenario segment of the spec: the straight segment from (0,0) to
(1000,0). -/
noncomputable def lineSeg : Segment := Segment.line ⟨0, 0⟩ ⟨1000, 0⟩

theorem lineSeg_eq : lineSeg = ⟨⟨⟨0, 0⟩, ⟨500, 0⟩, ⟨500, 0⟩, ⟨1000, 0⟩⟩⟩ := by
  simp [lineSeg, Segment.line]
  norm_num

theorem closest_point_lineSeg (m : Vector) (hm : m.x ≤ 0) :
    Segment.closest_point scenOps lineSeg m = (F.fin 0, ⟨0, 0⟩) := by
  rw [lineSeg_eq]
  simp [Segment.closest_point, scenOps, scenClosest, hm]

/-- C2: for every cross-track distance `d`, `offset_curvature (0, d) = 0`: a
segment with zero path curvature contributes no offset-curvature term, even
though `r = 1/path_curvature` divides by zero (the IEEE evaluation is
`1/0 = +inf`, `+inf + d = +inf`, `1/+inf = 0`). -/
theorem c2_offset_curvature_zero_curvature (d : ℝ) :
    offset_curvature (F.fin 0) (F.fin d) = F.fin 0 := by
  simp [offset_curvature, F.div_pos_zero one_pos]

/-- C8: for every positive correction strength `k`, the s-curve angle offset
`π / (1 + exp (k * d)) - π / 2` of `Path::update` lies strictly within
`(-π/2, π/2)` for every `d`, is `0` at `d = 0`, and is strictly decreasing
in `d`. -/
theorem c8_s_curve_properties (k d d1 d2 : ℝ) (hk : 0 < k) :
    (-(Real.pi / 2) < adjustDirectionOffset k d ∧
      adjustDirectionOffset k d < Real.pi / 2) ∧
    adjustDirectionOffset k 0 = 0 ∧
    (d1 < d2 → adjustDirectionOffset k d2 < adjustDirectionOffset k d1) := by
  have hpi := Real.pi_pos
  refine ⟨⟨?_, ?_⟩, ?_, ?_⟩
  · have h1 : 0 < 1 + Real.exp (k * d) := by positivity
    have h2 : 0 < Real.pi / (1 + Real.exp (k * d)) := div_pos hpi h1
    unfold adjustDirectionOffset
    linarith
  · have h1 : 1 < 1 + Real.exp (k * d) := by
      have := Real.exp_pos (k * d)
      linarith
    have h2 : Real.pi / (1 + Real.exp (k * d)) < Real.pi := div_lt_self hpi h1
    unfold adjustDirectionOffset
    linarith
  · unfold adjustDirectionOffset
    rw [mul_zero, Real.exp_zero]
    norm_num
  · intro h
    have he : Real.exp (k * d1) < Real.exp (k * d2) :=
      Real.exp_lt_exp.mpr (mul_lt_mul_of_pos_left h hk)
    have h1 : 0 < 1 + Real.exp (k * d1) := by positivity
    have hd : Real.pi / (1 + Real.exp (k * d2)) < Real.pi / (1 + Real.exp (k * d1)) :=
      div_lt_div_of_pos_left hpi h1 (by linarith)
    unfold adjustDirectionOffset
    linarith

/-- Witness for C8: the properties at the concrete strength `k = 1` and the
concrete distances `5`, and `0 < 1` for the monotonicity instance. -/
theorem c8_s_curve_properties_witness :
    (-(Real.pi / 2) < adjustDirectionOffset 1 5 ∧
      adjustDirectionOffset 1 5 < Real.pi / 2) ∧
    adjustDirectionOffset 1 0 = 0 ∧
    adjustDirectionOffset 1 1 < adjustDirectionOffset 1 0 :=
  ⟨(c8_s_curve_properties 1 5 0 1 one_pos).1,
    (c8_s_curve_properties 1 5 0 1 one_pos).2.1,
    (c8_s_curve_properties 1 5 0 1 one_pos).2.2 (by norm_num)⟩

/-- C3: when every closest-point parameter over the buffer is an ordinary
(finite) number, the advance loop of `Path::update` keeps exactly a prefix
`take k` of the buffer: every popped segment (the dropped suffix) had
parameter ≥ 1.0 (so equality at exactly 1.0 counts as complete and no segment
with parameter < 1.0 is ever popped), and the loop stops exactly when the
remaining top has parameter < 1.0 or the buffer is empty; the final conjunct
ties the loop to `Path::update`, whose resulting buffer is the loop's
output. -/
theorem c3_segment_advance (ops : CurveOps) (pos : Vector) (buf : List Segment)
    (hfin : ∀ s ∈ buf, F.isFin (Segment.closest_point ops s pos).1) :
    ∃ k, k ≤ buf.length ∧ (advanceBuf ops pos buf).1 = buf.take k ∧
      (∀ s ∈ buf.drop k, F.le (F.fin 1) (Segment.closest_point ops s pos).1) ∧
      (∀ s ∈ buf.drop k, ¬ F.lt (Segment.closest_point ops s pos).1 (F.fin 1)) ∧
      ((advanceBuf ops pos buf).1 = [] ∨
        ∃ s, (advanceBuf ops pos buf).1.getLast? = some s ∧
          F.lt (Segment.closest_point ops s pos).1 (F.fin 1)) ∧
      (∀ (t0 : ℕ) (config : PathConfig) (time : ℕ) (dir : Direction),
        ((Path.mk buf t0).update ops config time ⟨pos, dir⟩).state.segment_buffer =
          (advanceBuf ops pos buf).1) := by
  obtain ⟨k, hk, h1, h2, h3⟩ := advanceBuf_spec ops pos buf
  refine ⟨k, hk, h1, h2, ?_, ?_, ?_⟩
  · intro s hs
    obtain ⟨x, hx⟩ := (F.isFin_iff _).mp (hfin s (List.mem_of_mem_drop hs))
    have hle := h2 s hs
    rw [hx, F.le_fin_fin] at hle
    rw [hx, F.lt_fin_fin]
    exact not_lt.mpr hle
  · rcases h3 with h3 | ⟨s, hs, hns⟩
    · exact Or.inl h3
    · refine Or.inr ⟨s, hs, ?_⟩
      have hmem : s ∈ buf := by
        have := List.mem_of_getLast?_eq_some hs
        rw [h1] at this
        exact List.take_subset k buf this
      obtain ⟨x, hx⟩ := (F.isFin_iff _).mp (hfin s hmem)
      rw [hx, F.le_fin_fin] at hns
      rw [hx, F.lt_fin_fin]
      exact not_le.mp hns
  · intro t0 config time dir
    exact update_state_buffer ⟨buf, t0⟩ ops config time ⟨pos, dir⟩

/-- Witness for C3: the loop at the scenario segment from (0,0) to (1000,0)
with pose position (0,50), whose closest-point parameter is the finite 0. -/
theorem c3_segment_advance_witness :
    ∃ k, k ≤ [lineSeg].length ∧
      (advanceBuf scenOps ⟨0, 50⟩ [lineSeg]).1 = [lineSeg].take k ∧
      (∀ s ∈ [lineSeg].drop k,
        F.le (F.fin 1) (Segment.closest_point scenOps s ⟨0, 50⟩).1) ∧
      (∀ s ∈ [lineSeg].drop k,
        ¬ F.lt (Segment.closest_point scenOps s ⟨0, 50⟩).1 (F.fin 1)) ∧
      ((advanceBuf scenOps ⟨0, 50⟩ [lineSeg]).1 = [] ∨
        ∃ s, (advanceBuf scenOps ⟨0, 50⟩ [lineSeg]).1.getLast? = some s ∧
          F.lt (Segment.closest_point scenOps s ⟨0, 50⟩).1 (F.fin 1)) ∧
      (∀ (t0 : ℕ) (config : PathConfig) (time : ℕ) (dir : Direction),
        ((Path.mk [lineSeg] t0).update scenOps config time ⟨⟨0, 50⟩, dir⟩).state.segment_buffer =
          (advanceBuf scenOps ⟨0, 50⟩ [lineSeg]).1) := by
  apply c3_segment_advance scenOps ⟨0, 50⟩ [lineSeg]
  intro s hs
  rw [List.mem_singleton] at hs
  subst hs
  rw [closest_point_lineSeg ⟨0, 50⟩ (by norm_num)]
  exact F.isFin_fin 0

/-- C10: `Path::update` mutates exactly the two state fields: the segment
buffer becomes a prefix (`take k`) of the old buffer — completed segments are
removed from the insertion end, none added, reordered or modified — and the
stored tick time is set to the given time on every call, including the
done-case (the state has no other fields, so nothing else is touched). -/
theorem c10_frame_effect (ops : CurveOps) (p : Path) (config : PathConfig)
    (time : ℕ) (o : Orientation) :
    ∃ k, (p.update ops config time o).state.segment_buffer = p.segment_buffer.take k ∧
      (p.update ops config time o).state.time = time := by
  obtain ⟨k, _, h1, _, _⟩ := advanceBuf_spec ops o.position p.segment_buffer
  exact ⟨k, by rw [update_state_buffer]; exact h1, update_state_time p ops config time o⟩

theorem update_of_empty (p : Path) (ops : CurveOps) (config : PathConfig)
    (time : ℕ) (o : Orientation) (h : p.segment_buffer = []) :
    p.update ops config time o =
      { state := ⟨[], time⟩
        curvature := F.fin 0
        velocity := 0
        done := true
        debug := { path := some [], closest_point := none } } := by
  simp [Path.update, advanceBuf, advanceRev, h]

/-- C5: with an empty segment buffer, `Path::update` returns curvature 0,
velocity 0, done = true and leaves the buffer empty, so any further update
call on the resulting state returns the same result: done is idempotent and
terminal. -/
theorem c5_empty_terminal (ops : CurveOps) (p : Path) (config : PathConfig)
    (time : ℕ) (o : Orientation) (h : p.segment_buffer = []) :
    (p.update ops config time o).curvature = F.fin 0 ∧
    (p.update ops config time o).velocity = 0 ∧
    (p.update ops config time o).done = true ∧
    (p.update ops config time o).state.segment_buffer = [] ∧
    (∀ (ops2 : CurveOps) (config2 : PathConfig) (time2 : ℕ) (o2 : Orientation),
      ((p.update ops config time o).state.update ops2 config2 time2 o2).curvature = F.fin 0 ∧
      ((p.update ops config time o).state.update ops2 config2 time2 o2).velocity = 0 ∧
      ((p.update ops config time o).state.update ops2 config2 time2 o2).done = true ∧
      ((p.update ops config time o).state.update ops2 config2 time2 o2).state.segment_buffer
        = []) := by
  rw [update_of_empty p ops config time o h]
  refine ⟨rfl, rfl, rfl, rfl, ?_⟩
  intro ops2 config2 time2 o2
  rw [update_of_empty ⟨[], time⟩ ops2 config2 time2 o2 rfl]
  exact ⟨rfl, rfl, rfl, rfl⟩

/-- Witness for C5: a freshly created controller (empty buffer) at concrete
configuration, times and pose. -/
theorem c5_empty_terminal_witness :
    ((Path.new ⟨1, 2⟩ 5).update scenOps ⟨1, 2⟩ 7 ⟨⟨3, 4⟩, 0⟩).curvature = F.fin 0 ∧
    ((Path.new ⟨1, 2⟩ 5).update scenOps ⟨1, 2⟩ 7 ⟨⟨3, 4⟩, 0⟩).velocity = 0 ∧
    ((Path.new ⟨1, 2⟩ 5).update scenOps ⟨1, 2⟩ 7 ⟨⟨3, 4⟩, 0⟩).done = true ∧
    ((Path.new ⟨1, 2⟩ 5).update scenOps ⟨1, 2⟩ 7 ⟨⟨3, 4⟩, 0⟩).state.segment_buffer = [] ∧
    (∀ (ops2 : CurveOps) (config2 : PathConfig) (time2 : ℕ) (o2 : Orientation),
      (((Path.new ⟨1, 2⟩ 5).update scenOps ⟨1, 2⟩ 7
          ⟨⟨3, 4⟩, 0⟩).state.update ops2 config2 time2 o2).curvature = F.fin 0 ∧
      (((Path.new ⟨1, 2⟩ 5).update scenOps ⟨1, 2⟩ 7
          ⟨⟨3, 4⟩, 0⟩).state.update ops2 config2 time2 o2).velocity = 0 ∧
      (((Path.new ⟨1, 2⟩ 5).update scenOps ⟨1, 2⟩ 7
          ⟨⟨3, 4⟩, 0⟩).state.update ops2 config2 time2 o2).done = true ∧
      (((Path.new ⟨1, 2⟩ 5).update scenOps ⟨1, 2⟩ 7
          ⟨⟨3, 4⟩, 0⟩).state.update ops2 config2 time2 o2).state.segment_buffer = []) :=
  c5_empty_terminal scenOps (Path.new ⟨1, 2⟩ 5) ⟨1, 2⟩ 7 ⟨⟨3, 4⟩, 0⟩ rfl

theorem addSegmentsFrom_spec (segs : List Segment) :
    ∀ (buf : List Segment) (i : ℕ), buf.length ≤ 16 →
      (buf.length + segs.length ≤ 16 →
        addSegmentsFrom buf segs i =
          (buf ++ segs, Except.ok (16 - (buf.length + segs.length)))) ∧
      (16 < buf.length + segs.length →
        addSegmentsFrom buf segs i =
          (buf ++ segs.take (16 - buf.length), Except.error (i + (16 - buf.length)))) := by
  induction segs with
  | nil =>
    intro buf i hb
    constructor
    · intro _
      simp [addSegmentsFrom]
    · intro hc
      simp at hc
      omega
  | cons s rest ih =>
    intro buf i hb
    by_cases hlt : buf.length < 16
    · have hstep : addSegmentsFrom buf (s :: rest) i = addSegmentsFrom (buf ++ [s]) rest (i + 1) := by
        simp [addSegmentsFrom, hlt]
      have hb2 : (buf ++ [s]).length ≤ 16 := by
        simp
        omega
      obtain ⟨ha, hc⟩ := ih (buf ++ [s]) (i + 1) hb2
      constructor
      · intro hle
        rw [hstep, ha (by simp at hle ⊢; omega)]
        have hlen : (buf ++ [s]).length + rest.length = buf.length + (s :: rest).length := by
          simp
          omega
        rw [hlen, List.append_assoc]
        rfl
      · intro hgt
        rw [hstep, hc (by simp at hgt ⊢; omega)]
        have h16 : 16 - buf.length = (16 - (buf ++ [s]).length) + 1 := by
          simp
          omega
        rw [h16, List.take_succ_cons, List.append_assoc]
        have hidx : i + 1 + (16 - (buf ++ [s]).length) = i + (16 - (buf ++ [s]).length + 1) := by
          omega
        rw [hidx]
        rfl
    · have hlen : buf.length = 16 := by omega
      have hstep : addSegmentsFrom buf (s :: rest) i = (buf, Except.error i) := by
        simp [addSegmentsFrom, hlt]
      constructor
      · intro hle
        simp at hle
        omega
      · intro _
        rw [hstep, hlen]
        simp

/-- C6: `add_segments` appends the given segments in order; if a segment
does not fit it returns `Err i` with `i` the index of the first segment that
failed, keeping every segment inserted before `i`; on success it returns
`Ok n` with `n` the remaining free capacity `16 - len`. -/
theorem c6_add_segments (p : Path) (segments : List Segment)
    (hb : p.segment_buffer.length ≤ 16) :
    (segments.length ≤ 16 - p.segment_buffer.length →
      (p.add_segments segments).1.segment_buffer = p.segment_buffer ++ segments ∧
      (p.add_segments segments).2 =
        Except.ok (16 - (p.segment_buffer.length + segments.length))) ∧
    (16 - p.segment_buffer.length < segments.length →
      (p.add_segments segments).1.segment_buffer =
        p.segment_buffer ++ segments.take (16 - p.segment_buffer.length) ∧
      (p.add_segments segments).2 = Except.error (16 - p.segment_buffer.length)) := by
  obtain ⟨ha, hc⟩ := addSegmentsFrom_spec segments p.segment_buffer 0 hb
  constructor
  · intro h
    have := ha (by omega)
    constructor
    · show (addSegmentsFrom p.segment_buffer segments 0).1 = _
      rw [this]
    · show (addSegmentsFrom p.segment_buffer segments 0).2 = _
      rw [this]
  · intro h
    have := hc (by omega)
    constructor
    · show (addSegmentsFrom p.segment_buffer segments 0).1 = _
      rw [this]
    · show (addSegmentsFrom p.segment_buffer segments 0).2 = _
      rw [this]
      simp

/-- Witness for C6: adding one segment to an empty buffer succeeds reporting
15 free slots, with the segment appended. -/
theorem c6_add_segments_witness :
    ((Path.new ⟨1, 1⟩ 0).add_segments [lineSeg]).1.segment_buffer = [lineSeg] ∧
    ((Path.new ⟨1, 1⟩ 0).add_segments [lineSeg]).2 = Except.ok 15 := by
  have h := (c6_add_segments (Path.new ⟨1, 1⟩ 0) [lineSeg] (by simp [Path.new])).1
    (by simp [Path.new])
  simpa [Path.new] using h

theorem addSegmentsFrom_length_le (segs : List Segment) :
    ∀ (buf : List Segment) (i : ℕ), buf.length ≤ 16 →
      (addSegmentsFrom buf segs i).1.length ≤ 16 := by
  induction segs with
  | nil =>
    intro buf i hb
    simpa [addSegmentsFrom] using hb
  | cons s rest ih =>
    intro buf i hb
    by_cases hlt : buf.length < 16
    · have hstep : addSegmentsFrom buf (s :: rest) i = addSegmentsFrom (buf ++ [s]) rest (i + 1) := by
        simp [addSegmentsFrom, hlt]
      rw [hstep]
      exact ih (buf ++ [s]) (i + 1) (by simp; omega)
    · simpa [addSegmentsFrom, hlt] using hb

theorem advanceRev_length_le (ops : CurveOps) (pos : Vector) (l : List Segment) :
    (advanceRev ops pos l).1.length ≤ l.length := by
  induction l with
  | nil => simp [advanceRev]
  | cons a rest ih =>
    by_cases h : F.le (F.fin 1) (Segment.closest_point ops a pos).1
    · rw [advanceRev_cons_complete ops pos a rest h]
      exact le_trans ih (by simp)
    · rw [advanceRev_cons_active ops pos a rest h]

theorem update_buffer_length_le (p : Path) (ops : CurveOps) (config : PathConfig)
    (time : ℕ) (o : Orientation) :
    (p.update ops config time o).state.segment_buffer.length ≤
      p.segment_buffer.length := by
  rw [update_state_buffer]
  show (advanceRev ops o.position p.segment_buffer.reverse).1.reverse.length ≤ _
  rw [List.length_reverse]
  calc (advanceRev ops o.position p.segment_buffer.reverse).1.length
      ≤ p.segment_buffer.reverse.length := advanceRev_length_le _ _ _
    _ = p.segment_buffer.length := List.length_reverse _

theorem applyOps_length_le (l : List PathOp) :
    ∀ p : Path, p.segment_buffer.length ≤ 16 →
      (applyOps p l).segment_buffer.length ≤ 16 := by
  induction l with
  | nil =>
    intro p hp
    simpa [applyOps] using hp
  | cons op rest ih =>
    intro p hp
    show (applyOps (applyOp p op) rest).segment_buffer.length ≤ 16
    apply ih
    cases op with
    | add segs => exact addSegmentsFrom_length_le segs p.segment_buffer 0 hp
    | upd ops config time o => exact le_trans (update_buffer_length_le p ops config time o) hp

/-- C7: over every sequence of `add_segments` and `update` calls starting
from a newly created `Path`, the buffer length never exceeds 16; and once the
buffer is full, a further `add_segments` call leaves the contents unchanged
and rejects with `Err 0` as soon as the batch is non-empty. -/
theorem c7_capacity_invariant (config : PathConfig) (t0 : ℕ) (l : List PathOp) :
    (applyOps (Path.new config t0) l).segment_buffer.length ≤ 16 ∧
    (∀ (p : Path) (segments : List Segment), p.segment_buffer.length = 16 →
      (p.add_segments segments).1.segment_buffer = p.segment_buffer ∧
      (∀ (s : Segment) (rest : List Segment), segments = s :: rest →
        (p.add_segments segments).2 = Except.error 0)) := by
  constructor
  · exact applyOps_length_le l (Path.new config t0) (by simp [Path.new])
  · intro p segments hfull
    cases segments with
    | nil => exact ⟨rfl, fun s rest h => by cases h⟩
    | cons s rest =>
      constructor
      · show (addSegmentsFrom p.segment_buffer (s :: rest) 0).1 = _
        simp [addSegmentsFrom, hfull]
      · intro s2 rest2 _
        show (addSegmentsFrom p.segment_buffer (s :: rest) 0).2 = _
        simp [addSegmentsFrom, hfull]

/-- Witness for C7: one append to a fresh controller stays within capacity,
and a controller whose buffer holds 16 segments rejects a further append
with `Err 0` without mutating the buffer. -/
theorem c7_capacity_invariant_witness :
    (applyOps (Path.new ⟨0, 0⟩ 0) [PathOp.add [lineSeg]]).segment_buffer.length ≤ 16 ∧
    ((⟨List.replicate 16 lineSeg, 0⟩ : Path).add_segments
        [lineSeg]).1.segment_buffer = List.replicate 16 lineSeg ∧
    ((⟨List.replicate 16 lineSeg, 0⟩ : Path).add_segments [lineSeg]).2 =
      Except.error 0 := by
  have h := c7_capacity_invariant ⟨0, 0⟩ 0 [PathOp.add [lineSeg]]
  have h2 := h.2 ⟨List.replicate 16 lineSeg, 0⟩ [lineSeg] (by simp)
  exact ⟨h.1, h2.1, h2.2 lineSeg [] rfl⟩

/-- C9: the buffer is consumed last-in-first-out: pushing `[A, B, C]` into a
fresh controller stores the buffer `[A, B, C]` with `C` at the stack top
(`Vec::last`, i.e. `getLast?` — the segment the update loop inspects as
active, since the loop consumes the reversed buffer `[C, B, A]` head first),
and successive pops (`Vec::pop`, i.e. `dropLast`) yield `C`, then `B`, then
`A`. -/
theorem c9_lifo_order (config : PathConfig) (t0 : ℕ) (A B C : Segment) :
    (((Path.new config t0).add_segments [A, B, C]).1.segment_buffer = [A, B, C]) ∧
    [A, B, C].getLast? = some C ∧
    [A, B, C].dropLast = [A, B] ∧
    [A, B].getLast? = some B ∧
    [A, B].dropLast = [A] ∧
    [A].getLast? = some A ∧
    [A].dropLast = ([] : List Segment) ∧
    [A, B, C].reverse = [C, B, A] := by
  refine ⟨?_, by simp, by simp, by simp, by simp, by simp, by simp, by simp⟩
  show (addSegmentsFrom [] [A, B, C] 0).1 = _
  simp [addSegmentsFrom]

theorem adjustDirectionOffset_at_zero (k : ℝ) : adjustDirectionOffset k 0 = 0 := by
  unfold adjustDirectionOffset
  rw [mul_zero, Real.exp_zero]
  norm_num

theorem centeredAt_zero : Direction.centeredAt 0 0 = 0 := by
  simp [Direction.centeredAt]

theorem derivAt_line_zero :
    Bezier3.derivAt ⟨⟨0, 0⟩, ⟨500, 0⟩, ⟨500, 0⟩, ⟨1000, 0⟩⟩ 0 = ⟨1500, 0⟩ := by
  simp [Bezier3.derivAt]
  norm_num

theorem derivAt2_line_zero :
    Bezier3.derivAt2 ⟨⟨0, 0⟩, ⟨500, 0⟩, ⟨500, 0⟩, ⟨1000, 0⟩⟩ 0 = ⟨-3000, 0⟩ := by
  simp [Bezier3.derivAt2]
  norm_num

theorem direction_tangent_line : Vector.direction ⟨1500, 0⟩ = 0 := by
  norm_num [Vector.direction, atan2, Real.arctan_zero]

theorem scen_derivative_line :
    Segment.derivative scenOps lineSeg (F.fin 0) = ⟨1500, 0⟩ := by
  rw [lineSeg_eq]
  show scenOps.derivativeAt _ (F.fin 0) = _
  simp only [scenOps]
  exact derivAt_line_zero

theorem scen_curvature_line :
    Segment.curvature scenOps lineSeg (F.fin 0) = F.fin 0 := by
  rw [lineSeg_eq]
  show scenOps.curvatureAt _ (F.fin 0) = _
  simp only [scenOps]
  rw [derivAt_line_zero, derivAt2_line_zero]
  have hc : Vector.cross ⟨1500, 0⟩ ⟨-3000, 0⟩ = 0 := by norm_num [Vector.cross]
  have hm : Vector.magnitude (⟨1500, 0⟩ : Vector) = 1500 := by
    rw [Vector.magnitude]
    rw [show (1500 : ℝ) ^ 2 + 0 ^ 2 = 1500 ^ 2 by norm_num]
    exact Real.sqrt_sq (by norm_num)
  rw [hc, hm, F.div_fin_fin 0 (by norm_num : (1500 : ℝ) ^ 3 ≠ 0)]
  norm_num

theorem advanceRev_line (m : Vector) (hm : m.x ≤ 0) :
    advanceRev scenOps m [lineSeg] =
      ([lineSeg], some (F.fin 0, ⟨0, 0⟩),
        some (F.fin 0, signedDistance ⟨1500, 0⟩ (m - ⟨0, 0⟩), 0)) := by
  have hcp := closest_point_lineSeg m hm
  have hle : ¬ F.le (F.fin 1) (Segment.closest_point scenOps lineSeg m).1 := by
    rw [hcp]
    norm_num
  rw [advanceRev_cons_active scenOps m lineSeg [] hle]
  rw [hcp]
  simp [scen_derivative_line, scen_curvature_line, direction_tangent_line]

theorem advanceBuf_line (m : Vector) (hm : m.x ≤ 0) :
    advanceBuf scenOps m [lineSeg] =
      ([lineSeg], some (F.fin 0, ⟨0, 0⟩),
        some (F.fin 0, signedDistance ⟨1500, 0⟩ (m - ⟨0, 0⟩), 0)) := by
  simp [advanceBuf, advanceRev_line m hm]

theorem sd_origin : signedDistance ⟨1500, 0⟩ ((⟨0, 0⟩ : Vector) - ⟨0, 0⟩) = 0 := by
  norm_num [signedDistance, Vector.cross, Vector.magnitude]

theorem sd_above : signedDistance ⟨1500, 0⟩ ((⟨0, 50⟩ : Vector) - ⟨0, 0⟩) = 50 := by
  rw [show (⟨0, 50⟩ : Vector) - ⟨0, 0⟩ = ⟨0, 50⟩ by norm_num]
  rw [signedDistance, if_pos (by norm_num [Vector.cross])]
  rw [Vector.magnitude]
  rw [show (0 : ℝ) ^ 2 + 50 ^ 2 = 50 ^ 2 by norm_num]
  exact Real.sqrt_sq (by norm_num)

theorem sd_behind : signedDistance ⟨1500, 0⟩ ((⟨-50, 0⟩ : Vector) - ⟨0, 0⟩) = -50 := by
  rw [show (⟨-50, 0⟩ : Vector) - ⟨0, 0⟩ = ⟨-50, 0⟩ by norm_num]
  rw [signedDistance, if_neg (by norm_num [Vector.cross])]
  rw [Vector.magnitude]
  rw [show (-50 : ℝ) ^ 2 + 0 ^ 2 = 50 ^ 2 by norm_num]
  rw [Real.sqrt_sq (by norm_num : (0 : ℝ) ≤ 50)]

/-- C1 as amended: with the correction strategy enabled and an active
segment, whenever the projected distance is zero the `adjust_curvature` term
is NOT an explicit fallback 0 but a non-finite IEEE value — NaN when the
angle error is also zero, ±∞ otherwise — produced by the unguarded division
`offset_direction / projected_distance`, and it propagates into
`target_curvature`. -/
theorem c1_unguarded_division (ops : CurveOps) (p : Path) (config : PathConfig)
    (time : ℕ) (o : Orientation) (hp : config.offset_p ≠ 0)
    (hz : ((wrapSub time p.time : ℕ) : ℝ) * config.velocity = 0)
    (ha : (advanceBuf ops o.position p.segment_buffer).2.2.isSome = true) :
    ∃ a, (p.update ops config time o).debug.adjust_curvature = some a ∧
      ¬ F.isFin a ∧ ¬ F.isFin (p.update ops config time o).curvature := by
  obtain ⟨info, hinfo⟩ := Option.isSome_iff_exists.mp ha
  have hdbg : (p.update ops config time o).debug.adjust_curvature =
      some (F.div
        (F.fin ((info.2.2 + adjustDirectionOffset config.offset_p info.2.1) -
          Direction.centeredAt o.direction
            (info.2.2 + adjustDirectionOffset config.offset_p info.2.1)))
        (F.fin 0)) := by
    simp [Path.update, hinfo, hp, hz]
  have hcurv : (p.update ops config time o).curvature =
      F.add (offset_curvature info.1 (F.fin info.2.1))
        (F.div
          (F.fin ((info.2.2 + adjustDirectionOffset config.offset_p info.2.1) -
            Direction.centeredAt o.direction
              (info.2.2 + adjustDirectionOffset config.offset_p info.2.1)))
          (F.fin 0)) := by
    simp [Path.update, hinfo, hp, hz]
  refine ⟨_, hdbg, F.not_isFin_div_fin_zero _, ?_⟩
  rw [hcurv]
  exact F.not_isFin_add_right _ (F.not_isFin_div_fin_zero _)

/-- Witness for C1 (amended): the scenario segment with the pose at its
start, strength 1, configured cruise velocity 0 — the projected distance is
zero and the division produces a non-finite value. -/
theorem c1_unguarded_division_witness :
    ∃ a, ((⟨[lineSeg], 0⟩ : Path).update scenOps ⟨1, 0⟩ 1
        ⟨⟨0, 0⟩, 0⟩).debug.adjust_curvature = some a ∧
      ¬ F.isFin a ∧
      ¬ F.isFin ((⟨[lineSeg], 0⟩ : Path).update scenOps ⟨1, 0⟩ 1 ⟨⟨0, 0⟩, 0⟩).curvature := by
  apply c1_unguarded_division scenOps ⟨[lineSeg], 0⟩ ⟨1, 0⟩ 1 ⟨⟨0, 0⟩, 0⟩
  · norm_num
  · exact mul_zero _
  · rw [advanceBuf_line ⟨0, 0⟩ (by norm_num)]
    rfl

/-- Counterexample to C1 as stated: at the concrete input (segment from
(0,0) to (1000,0), pose at its start heading 0, strength 1, cruise velocity
0, tick time 1) the projected distance is zero, yet `adjust_curvature` is
NaN, not the claimed fallback 0. -/
theorem c1_no_zero_fallback :
    ((⟨[lineSeg], 0⟩ : Path).update scenOps ⟨1, 0⟩ 1
        ⟨⟨0, 0⟩, 0⟩).debug.adjust_curvature = some F.nan ∧
    F.nan ≠ F.fin 0 := by
  constructor
  · have hadv := advanceBuf_line ⟨0, 0⟩ (by norm_num)
    rw [sd_origin] at hadv
    simp [Path.update, hadv, adjustDirectionOffset_at_zero, centeredAt_zero]
  · intro hcontra
    exact F.noConfusion hcontra

/-- C4 as amended: whenever the cross product of the tangent with the offset
is nonzero, the signed cross-track distance of `Path::update` equals
`sign(cross(tangent, offset)) * |offset|`; and in the (0,50) scenario against
the straight segment from (0,0) to (1000,0) the cross product is positive
and the computed distance is +50.  (When the cross product is zero the code
returns `-|offset|` instead of `sign(0)*|offset| = 0`.) -/
theorem c4_signed_distance :
    (∀ v_tangent v_m : Vector, Vector.cross v_tangent v_m ≠ 0 →
      signedDistance v_tangent v_m =
        Real.sign (Vector.cross v_tangent v_m) * Vector.magnitude v_m) ∧
    ((⟨[lineSeg], 0⟩ : Path).update scenOps ⟨0, 1⟩ 1
        ⟨⟨0, 50⟩, 0⟩).debug.distance_from = some 50 ∧
    0 < Vector.cross ⟨1500, 0⟩ ((⟨0, 50⟩ : Vector) - ⟨0, 0⟩) := by
  refine ⟨?_, ?_, by norm_num [Vector.cross]⟩
  · intro vt vm h
    rcases lt_or_gt_of_ne h with hneg | hpos
    · rw [signedDistance, if_neg (not_lt.mpr hneg.le), Real.sign_of_neg hneg]
      ring
    · rw [signedDistance, if_pos hpos, Real.sign_of_pos hpos]
      ring
  · have hadv := advanceBuf_line ⟨0, 50⟩ (by norm_num)
    rw [sd_above] at hadv
    simp [Path.update, hadv]

/-- Witness for C4 (amended): the (0,50) scenario offset, where the cross
product is the nonzero 75000. -/
theorem c4_signed_distance_witness :
    signedDistance ⟨1500, 0⟩ ⟨0, 50⟩ =
      Real.sign (Vector.cross ⟨1500, 0⟩ ⟨0, 50⟩) * Vector.magnitude ⟨0, 50⟩ :=
  c4_signed_distance.1 ⟨1500, 0⟩ ⟨0, 50⟩ (by norm_num [Vector.cross])

/-- Counterexample to C4 as stated: for the pose (-50,0) against the same
straight segment the tangent is (1500,0) and the offset (-50,0), so the
cross product is zero: the code computes distance -50, while the claimed
formula `sign(cross)*|offset|` gives 0. -/
theorem c4_sign_zero_mismatch :
    ((⟨[lineSeg], 0⟩ : Path).update scenOps ⟨0, 1⟩ 1
        ⟨⟨-50, 0⟩, 0⟩).debug.distance_from = some (-50) ∧
    Real.sign (Vector.cross ⟨1500, 0⟩ ((⟨-50, 0⟩ : Vector) - ⟨0, 0⟩)) *
      Vector.magnitude ((⟨-50, 0⟩ : Vector) - ⟨0, 0⟩) = 0 := by
  constructor
  · have hadv := advanceBuf_line ⟨-50, 0⟩ (by norm_num)
    rw [sd_behind] at hadv
    simp [Path.update, hadv]
  · have hc : Vector.cross ⟨1500, 0⟩ ((⟨-50, 0⟩ : Vector) - ⟨0, 0⟩) = 0 := by
      norm_num [Vector.cross]
    rw [hc, Real.sign_zero, zero_mul]

end Micromouse
